import Mathlib

/-!
Shallow embedding of `mapel/elections/distances_.py` of the `mapel`
repository: the distance registries, the identifier parser
`_extract_distance_id`, the dispatchers (`get_distance`,
`get_approval_distance`, `get_ordinal_distance`) and the two pairwise
computation schedulers (`run_single_process`, `run_multiple_processes`).

Modelling conventions:
* Python floats returned by metrics are modelled as rationals.
* A raised Python exception is `Except.error` with a `PyError` tag.
* Metric functions are external collaborators (imported from
  `main_approval_distances` / `main_ordinal_distances`); they are opaque
  parameters bundled in `MetricEnv`.  A metric may mutate its two argument
  objects in place, so a call returns, next to its result value, the state
  of the two argument objects after the call (`MetricCall.arg1/arg2`).
  `copy.deepcopy` hands the metric a fresh object, hence with a deep copy
  an in-place mutation never reaches the object held by the caller.
* A `dict` matrix cell is `Option`: `none` is an absent key, `some v` a
  written value; a stored Python `None` in the distance matrix is
  `some none`.
* The wall-clock duration `time() - start_time` of an iteration is an
  oracle input: each request in the list carries the duration that the
  clock will report for it.
-/

namespace MapelDist

/-- Tag for the element-level (inner) distance functions of
`mapel.core.inner_distances`; `l1` is the one named by the spec. -/
inductive InnerFn
  | l1
  deriving DecidableEq

/-- Python exceptions that the orchestration code can raise:
`TypeError` from `'-' in None`, `ValueError` from unpacking a split with
more than two parts, and the failure of the element-level lookup on an
unknown inner-distance name. -/
inductive PyError
  | typeError
  | valueError
  | unknownInnerDistance (name : String)
  deriving DecidableEq

/-- The runtime class of an instance object. `ApprovalElection` and
`OrdinalElection` are the two classes tested by `get_distance`;
`SubApprovalElection` / `SubOrdinalElection` stand for strict subclasses
of them, `OtherClass` for any unrelated class. -/
inductive PyClass
  | ApprovalElection
  | OrdinalElection
  | SubApprovalElection
  | SubOrdinalElection
  | OtherClass
  deriving DecidableEq

/-- An instance object: its runtime class plus an opaque payload. -/
structure Election where
  cls : PyClass
  data : ℕ
  deriving DecidableEq

/-- Python `isinstance(x, ApprovalElection)`: also true for strict
subclasses (contrast with `type(x) is ApprovalElection`). -/
def isinstance_approval : PyClass → Bool
  | .ApprovalElection => true
  | .SubApprovalElection => true
  | _ => false

/-- Python `isinstance(x, OrdinalElection)`. -/
def isinstance_ordinal : PyClass → Bool
  | .OrdinalElection => true
  | .SubOrdinalElection => true
  | _ => false

/-- Value returned by a metric: a bare scalar or a (scalar, matching)
tuple. -/
inductive MRet
  | scalarR (d : ℚ)
  | pairR (d : ℚ) (matching : List ℕ)
  deriving DecidableEq

/-- Outcome of one metric invocation: the returned value together with the
post-call state of the two argument objects (a metric may mutate its
arguments in place). -/
structure MetricCall where
  ret : MRet
  arg1 : Election
  arg2 : Election
  deriving DecidableEq

/-- A registered metric function.  The `Option InnerFn` argument is the
resolved inner distance when the identifier had one (third positional
argument in the source) and `none` for the keyword-argument call shape. -/
def MetricFn : Type := Election → Election → Option InnerFn → MetricCall

/-- The external metric implementations imported as `mad` / `mod`,
opaque to the orchestration layer. -/
structure MetricEnv where
  compute_approvalwise : MetricFn
  compute_hamming : MetricFn
  compute_positionwise_distance : MetricFn
  compute_bordawise_distance : MetricFn
  compute_pairwise_distance : MetricFn
  compute_discrete_distance : MetricFn
  compute_swap_distance : MetricFn
  compute_spearman_distance : MetricFn
  compute_blank_distance : MetricFn
  compute_spearman_distance_ilp_py : MetricFn
  compute_swap_distance_ilp_py : MetricFn
  compute_voterlikeness_distance : MetricFn
  compute_agg_voterlikeness_distance : MetricFn
  compute_pos_swap_distance : MetricFn
  compute_voter_subelection : MetricFn
  compute_candidate_subelection : MetricFn

/-- The `registered_approval_distances` table. -/
def registered_approval_distances (env : MetricEnv) : List (String × MetricFn) :=
  [("approvalwise", env.compute_approvalwise),
   ("hamming", env.compute_hamming)]

/-- The `registered_ordinal_distances` table. -/
def registered_ordinal_distances (env : MetricEnv) : List (String × MetricFn) :=
  [("positionwise", env.compute_positionwise_distance),
   ("bordawise", env.compute_bordawise_distance),
   ("pairwise", env.compute_pairwise_distance),
   ("discrete", env.compute_discrete_distance),
   ("swap", env.compute_swap_distance),
   ("spearman", env.compute_spearman_distance),
   ("blank", env.compute_blank_distance),
   ("ilp_spearman", env.compute_spearman_distance_ilp_py),
   ("ilp_swap", env.compute_swap_distance_ilp_py),
   ("voterlikeness", env.compute_voterlikeness_distance),
   ("agg_voterlikeness", env.compute_agg_voterlikeness_distance),
   ("pos_swap", env.compute_pos_swap_distance),
   ("voter_subelection", env.compute_voter_subelection),
   ("candidate_subelection", env.compute_candidate_subelection)]

/-- Python `main_distance in registry` / `registry.get(main_distance)`:
lookup in an association list. -/
def dictLookup {β : Type} : List (String × β) → String → Option β
  | [], _ => none
  | (k, v) :: es, a => if a = k then some v else dictLookup es a

/-- Modelled from the spec: `map_str_to_func` of
`mapel.core.inner_distances` is code of this repository that is not under
`src/`.  Per the spec it resolves an inner-distance name through the
element-level lookup table and fails on an unknown name
(`UnknownInnerDistance`); `l1` is the inner distance the spec names. -/
def map_str_to_func (s : String) : Except PyError InnerFn :=
  if s = "l1" then .ok .l1 else .error (.unknownInnerDistance s)

/-- Python `s.split(sep)`, written structurally on the character list. -/
def pySplitAux (sep : Char) : List Char → List Char → List String
  | [], acc => [String.mk acc.reverse]
  | c :: cs, acc =>
      if c = sep then String.mk acc.reverse :: pySplitAux sep cs []
      else pySplitAux sep cs (c :: acc)

/-- Python `s.split(sep)`. -/
def pySplit (s : String) (sep : Char) : List String :=
  pySplitAux sep s.data []

/-- `_extract_distance_id`: return the inner-distance and main-distance
names.  With the default `distance_id=None` the membership test
`'-' in distance_id` raises `TypeError`; a split yielding more than two
parts makes the tuple unpacking raise `ValueError`. -/
def _extract_distance_id (distance_id : Option String) :
    Except PyError (Option InnerFn × String) :=
  match distance_id with
  | none => .error .typeError
  | some s =>
      if s.data.contains '-' then
        match pySplit s '-' with
        | [innerName, main_distance] => do
            let inner_distance ← map_str_to_func innerName
            .ok (some inner_distance, main_distance)
        | _ => .error .valueError
      else .ok (none, s)

/-- The Python value that a dispatcher call hands back to the scheduler:
`None` (after a logged warning), a bare scalar, or a (scalar, matching)
tuple. -/
inductive PyRet
  | noneV
  | scalarV (d : ℚ)
  | tupleV (d : ℚ) (matching : List ℕ)
  deriving DecidableEq

/-- The metric result as seen by the scheduler. -/
def pyRetOf : MRet → PyRet
  | .scalarR d => .scalarV d
  | .pairR d m => .tupleV d m

/-- Observable outcome of one dispatcher call: the returned value, the
warnings logged during the call, the names under which registry metrics
were invoked, and the post-call state of the two argument objects. -/
structure CallOutcome where
  ret : PyRet
  warnings : List String
  invoked : List String
  arg1 : Election
  arg2 : Election
  deriving DecidableEq

/-- `get_approval_distance`: parse the identifier, look the main distance
up in `registered_approval_distances`, invoke it with the inner distance
or with the pass-through keyword arguments, else log a warning. -/
def get_approval_distance (env : MetricEnv) (election_1 election_2 : Election)
    (distance_id : Option String) : Except PyError CallOutcome :=
  match _extract_distance_id distance_id with
  | .error e => .error e
  | .ok (inner_distance, main_distance) =>
    match dictLookup (registered_approval_distances env) main_distance with
    | some f =>
        match inner_distance with
        | some g =>
            let call := f election_1 election_2 (some g)
            .ok ⟨pyRetOf call.ret, [], [main_distance], call.arg1, call.arg2⟩
        | none =>
            let call := f election_1 election_2 none
            .ok ⟨pyRetOf call.ret, [], [main_distance], call.arg1, call.arg2⟩
    | none =>
        .ok ⟨.noneV, ["No such distance as: " ++ main_distance ++ "!"], [],
          election_1, election_2⟩

/-- `get_ordinal_distance`. -/
def get_ordinal_distance (env : MetricEnv) (election_1 election_2 : Election)
    (distance_id : Option String) : Except PyError CallOutcome :=
  match _extract_distance_id distance_id with
  | .error e => .error e
  | .ok (inner_distance, main_distance) =>
    match dictLookup (registered_ordinal_distances env) main_distance with
    | some f =>
        match inner_distance with
        | some g =>
            let call := f election_1 election_2 (some g)
            .ok ⟨pyRetOf call.ret, [], [main_distance], call.arg1, call.arg2⟩
        | none =>
            let call := f election_1 election_2 none
            .ok ⟨pyRetOf call.ret, [], [main_distance], call.arg1, call.arg2⟩
    | none =>
        .ok ⟨.noneV, ["No such distance as: " ++ main_distance ++ "!"], [],
          election_1, election_2⟩

/-- `get_distance`: family dispatch by exact runtime class
(`type(election) is ApprovalElection`), with the warning
`No such instance!` otherwise. -/
def get_distance (env : MetricEnv) (election_1 election_2 : Election)
    (distance_id : Option String) : Except PyError CallOutcome :=
  if election_1.cls = PyClass.ApprovalElection ∧
      election_2.cls = PyClass.ApprovalElection then
    get_approval_distance env election_1 election_2 distance_id
  else if election_1.cls = PyClass.OrdinalElection ∧
      election_2.cls = PyClass.OrdinalElection then
    get_ordinal_distance env election_1 election_2 distance_id
  else
    .ok ⟨.noneV, ["No such instance!"], [], election_1, election_2⟩

/-- `np.argsort`: the indices that sort the array.  Ties cannot occur on
the permutations the scheduler applies it to, so the particular sorting
algorithm is irrelevant. -/
def np_argsort (l : List ℕ) : List ℕ :=
  List.insertionSort (fun i j => l.getD i 0 ≤ l.getD j 0) (List.range l.length)

/-- A `dict`-of-`dict` matrix: `none` is an absent key. -/
def Mat (α : Type) : Type := ℕ → ℕ → Option α

/-- `m[i][j] = v`. -/
def Mat.set {α : Type} (m : Mat α) (i j : ℕ) (v : α) : Mat α :=
  fun a b => if a = i ∧ b = j then some v else m a b

/-- The empty matrix the caller hands to a scheduler. -/
def Mat.empty {α : Type} : Mat α := fun _ _ => none

/-- A symmetric matrix. -/
def SymMat {α : Type} (m : Mat α) : Prop := ∀ i j, m i j = m j i

/-- The parts of the `Experiment` object the schedulers read. -/
structure Experiment where
  instances : ℕ → Election
  distance_id : Option String
  is_exported : Bool

/-- The mutable state a scheduler run acts on: the experiment (its stored
instance objects can be mutated in place by a metric when they are passed
without a deep copy) and the three result matrices. -/
structure RunState where
  exp : Experiment
  distances : Mat (Option ℚ)
  times : Mat ℚ
  matchings : Mat (List ℕ)

/-- In-place replacement of the stored instance object `i`. -/
def updInst (f : ℕ → Election) (i : ℕ) (e : Election) : ℕ → Election :=
  fun k => if k = i then e else f k

/-- The loop body shared by `run_single_process` and
`run_multiple_processes` for one request `((i, j), t)`: dispatch through
`get_distance`, then the mirrored writes into the three matrices; `t` is
the duration that `time() - start_time` reports for this iteration.
With `safe_mode` the dispatcher receives deep copies, so an in-place
mutation of the arguments by the metric never reaches `exp.instances`;
without it the stored objects themselves are passed and mutated.
On the warning path (`distance` is `None`) the matchings are left alone
but `None` is still written into both distance cells and the times are
still recorded. -/
def processPair (env : MetricEnv) (safe_mode : Bool) (st : RunState)
    (pr : (ℕ × ℕ) × ℚ) : Except PyError RunState :=
  match get_distance env (st.exp.instances pr.1.1) (st.exp.instances pr.1.2)
      st.exp.distance_id with
  | .error e => .error e
  | .ok out =>
    let i := pr.1.1
    let j := pr.1.2
    let inst' := if safe_mode then st.exp.instances
      else updInst (updInst st.exp.instances i out.arg1) j out.arg2
    let matchings' :=
      match out.ret with
      | .tupleV _ m => (st.matchings.set i j m).set j i (np_argsort m)
      | _ => st.matchings
    let dval : Option ℚ :=
      match out.ret with
      | .tupleV d _ => some d
      | .scalarV d => some d
      | .noneV => none
    .ok { exp := { instances := inst', distance_id := st.exp.distance_id,
                   is_exported := st.exp.is_exported },
          distances := (st.distances.set i j dval).set j i dval,
          times := (st.times.set i j pr.2).set j i pr.2,
          matchings := matchings' }

/-- `run_single_process`: fold the loop body over the request list (the
`tqdm` progress wrapper is purely observational). -/
def run_single_process (env : MetricEnv) (instances_ids : List ((ℕ × ℕ) × ℚ))
    (safe_mode : Bool) (st : RunState) : Except PyError RunState :=
  instances_ids.foldl
    (fun acc pr => acc >>= fun s => processPair env safe_mode s pr) (.ok st)

/-- Modelled from the spec: `export_distances_multiple_processes` of
`mapel.core.persistence.experiment_exports` is code of this repository
that is not under `src/`; per the spec it persists the partition results
to storage and does not change the in-memory matrices. -/
def export_distances_multiple_processes (st : RunState) : RunState := st

/-- `run_multiple_processes`: one worker.  The instances and the
identifier are always deep-copied before dispatch, and after its
partition the worker may export its results. -/
def run_multiple_processes (env : MetricEnv)
    (instances_ids : List ((ℕ × ℕ) × ℚ)) (st : RunState) :
    Except PyError RunState :=
  match instances_ids.foldl
      (fun acc pr => acc >>= fun s => processPair env true s pr) (.ok st) with
  | .error e => .error e
  | .ok st' =>
      if st'.exp.is_exported then .ok (export_distances_multiple_processes st')
      else .ok st'

/-- Multi-worker mode: every worker executes `run_multiple_processes` on
its part of the partition.  The workers write disjoint matrix cells, so
the sequential composition models the merge of the per-worker matrices. -/
def run_multiple_workers (env : MetricEnv)
    (parts : List (List ((ℕ × ℕ) × ℚ))) (st : RunState) :
    Except PyError RunState :=
  parts.foldl
    (fun acc part => acc >>= fun s => run_multiple_processes env part s)
    (.ok st)

/-- Two request keys denote the same unordered pair. -/
def sameKey (p q : ℕ × ℕ) : Prop := p = q ∨ p = (q.2, q.1)

/-- A metric that does not mutate its argument objects. -/
def PureMetric (f : MetricFn) : Prop :=
  ∀ e1 e2 inn, (f e1 e2 inn).arg1 = e1 ∧ (f e1 e2 inn).arg2 = e2

/-- All registered metrics are non-mutating. -/
def PureEnv (env : MetricEnv) : Prop :=
  ∀ f ∈ (registered_approval_distances env ++
      registered_ordinal_distances env).map Prod.snd, PureMetric f

/-- The (distances, matchings) components of the state, the ones claimed
identical across the two execution modes. -/
@[ext]
structure DMState where
  distances : Mat (Option ℚ)
  matchings : Mat (List ℕ)

/-- Projection onto distances and matchings. -/
def RunState.dm (st : RunState) : DMState := ⟨st.distances, st.matchings⟩

/-- One request's effect on distances and matchings alone, with the
experiment fixed (every mode leaves it unchanged when the metrics are
non-mutating). -/
def dmStep (env : MetricEnv) (E : Experiment) (s : DMState) (p : ℕ × ℕ) :
    Except PyError DMState :=
  match get_distance env (E.instances p.1) (E.instances p.2) E.distance_id with
  | .error e => .error e
  | .ok out =>
    let matchings' :=
      match out.ret with
      | .tupleV _ m => (s.matchings.set p.1 p.2 m).set p.2 p.1 (np_argsort m)
      | _ => s.matchings
    let dval : Option ℚ :=
      match out.ret with
      | .tupleV d _ => some d
      | .scalarV d => some d
      | .noneV => none
    .ok ⟨(s.distances.set p.1 p.2 dval).set p.2 p.1 dval, matchings'⟩

/-- The distance value the scheduler stores for a dispatcher return
value (`None` on the warning path). -/
def dvalOf : PyRet → Option ℚ
  | .tupleV d _ => some d
  | .scalarV d => some d
  | .noneV => none

/-- The matchings writes for one request: two mirrored cells when the
return value was a tuple, nothing otherwise. -/
def mwrite (mm : Mat (List ℕ)) (p : ℕ × ℕ) : PyRet → Mat (List ℕ)
  | .tupleV _ m => (mm.set p.1 p.2 m).set p.2 p.1 (np_argsort m)
  | _ => mm

/-- One request's writes into distances and matchings. -/
def dmWrite (s : DMState) (p : ℕ × ℕ) (r : PyRet) : DMState :=
  ⟨(s.distances.set p.1 p.2 (dvalOf r)).set p.2 p.1 (dvalOf r),
    mwrite s.matchings p r⟩

/-- The state a run produced, with a fallback for the error case. -/
def resultOr {σ : Type} (e : Except PyError σ) (d : σ) : σ :=
  match e with
  | .ok s => s
  | .error _ => d

/-- Sample metric: returns a scalar, mutates nothing. -/
def pureScalarMetric : MetricFn := fun e1 e2 _ => ⟨.scalarR 0, e1, e2⟩

/-- Sample metric: returns the tuple `(1, [1, 2, 0])`, mutates nothing. -/
def pureMatchingMetric : MetricFn := fun e1 e2 _ => ⟨.pairR 1 [1, 2, 0], e1, e2⟩

/-- Sample metric that mutates its first argument object in place. -/
def mutatingMetric : MetricFn :=
  fun e1 e2 _ => ⟨.scalarR 0, ⟨e1.cls, e1.data + 1⟩, e2⟩

/-- An environment using one metric function everywhere. -/
def constEnv (f : MetricFn) : MetricEnv :=
  ⟨f, f, f, f, f, f, f, f, f, f, f, f, f, f, f, f⟩

/-- Sample environment: `swap` yields a matching, all others a scalar. -/
def sampleEnv : MetricEnv :=
  { constEnv pureScalarMetric with compute_swap_distance := pureMatchingMetric }

/-- Sample environment in which every metric mutates its input. -/
def mutEnv : MetricEnv := constEnv mutatingMetric

/-- Instance collection: all ordinal. -/
def ordInstances : ℕ → Election := fun k => ⟨.OrdinalElection, k⟩

/-- Instance collection with a family mismatch between 0 and the rest. -/
def mixedInstances : ℕ → Election :=
  fun k => if k = 0 then ⟨.ApprovalElection, 0⟩ else ⟨.OrdinalElection, k⟩

/-- Experiment over the ordinal collection with the `swap` distance. -/
def ordExp : Experiment := ⟨ordInstances, some "swap", false⟩

/-- Experiment over the mixed collection with the `swap` distance. -/
def mixedExp : Experiment := ⟨mixedInstances, some "swap", false⟩

/-- Fresh run state: empty matrices. -/
def initState (E : Experiment) : RunState := ⟨E, Mat.empty, Mat.empty, Mat.empty⟩


/-! ### Basic lemmas about the embedding -/

theorem foldl_except_error {σ β : Type} (step : σ → β → Except PyError σ)
    (l : List β) (e : PyError) :
    l.foldl (fun acc pr => acc >>= fun s => step s pr) (Except.error e) =
    Except.error e := by
  induction l with
  | nil => rfl
  | cons x xs ih => exact ih

theorem foldl_except_cons {σ β : Type} (step : σ → β → Except PyError σ)
    (x : β) (xs : List β) (st : σ) :
    (x :: xs).foldl (fun acc pr => acc >>= fun s => step s pr) (Except.ok st) =
    step st x >>= fun s =>
      xs.foldl (fun acc pr => acc >>= fun s => step s pr) (Except.ok s) := by
  show xs.foldl _ (Except.ok st >>= fun s => step s x) = _
  cases h : step st x with
  | ok s =>
      show xs.foldl _ (step st x) = _
      rw [h]
      rfl
  | error e =>
      show xs.foldl _ (step st x) = _
      rw [h]
      exact foldl_except_error step xs e

theorem dictLookup_mem {β : Type} {l : List (String × β)} {k : String} {v : β}
    (h : dictLookup l k = some v) : v ∈ l.map Prod.snd := by
  induction l with
  | nil => simp [dictLookup] at h
  | cons x xs ih =>
      obtain ⟨a, b⟩ := x
      simp only [dictLookup] at h
      by_cases hk : k = a
      · rw [if_pos hk] at h
        cases h
        exact List.mem_cons_self _ _
      · rw [if_neg hk] at h
        exact List.mem_cons_of_mem _ (ih h)

theorem Mat.set_hit {α : Type} (m : Mat α) (i j : ℕ) (v : α) :
    (m.set i j v) i j = some v := by
  show (if i = i ∧ j = j then some v else m i j) = some v
  simp

theorem Mat.set_miss {α : Type} (m : Mat α) {i j a b : ℕ} (v : α)
    (h : ¬(a = i ∧ b = j)) : (m.set i j v) a b = m a b := by
  show (if a = i ∧ b = j then some v else m a b) = m a b
  exact if_neg h

theorem Mat.write2_comm {α : Type} (m : Mat α) (a b c d : ℕ) (v w : α)
    (_h1 : ¬(c = a ∧ d = b)) (_h2 : ¬(c = b ∧ d = a))
    (_h3 : ¬(d = a ∧ c = b)) (_h4 : ¬(d = b ∧ c = a)) :
    (((m.set a b v).set b a v).set c d w).set d c w =
    (((m.set c d w).set d c w).set a b v).set b a v := by
  funext p q
  simp only [Mat.set]
  split_ifs <;> first | rfl | omega

theorem Mat.write2_cell1 {α : Type} (m : Mat α) (i j : ℕ) (v : α) :
    ((m.set i j v).set j i v) i j = some v := by
  by_cases hij : i = j
  · subst hij
    exact Mat.set_hit _ _ _ _
  · rw [Mat.set_miss _ _ (fun hc => hij hc.1), Mat.set_hit]

theorem Mat.write2_cell2 {α : Type} (m : Mat α) (i j : ℕ) (v : α) :
    ((m.set i j v).set j i v) j i = some v :=
  Mat.set_hit _ _ _ _

theorem SymMat.write2 {α : Type} {m : Mat α} (hm : SymMat m) (i j : ℕ) (v : α) :
    SymMat ((m.set i j v).set j i v) := by
  intro a b
  simp only [Mat.set]
  split_ifs <;> first | rfl | omega | exact hm a b

/-! ### Case analysis of the dispatchers -/

theorem get_approval_cases (env : MetricEnv) (e1 e2 : Election)
    (did : Option String) :
    (∃ e, _extract_distance_id did = .error e ∧
        get_approval_distance env e1 e2 did = .error e) ∨
    (∃ inn main, _extract_distance_id did = .ok (inn, main) ∧
      ((∃ f, dictLookup (registered_approval_distances env) main = some f ∧
          get_approval_distance env e1 e2 did =
            .ok ⟨pyRetOf (f e1 e2 inn).ret, [], [main],
              (f e1 e2 inn).arg1, (f e1 e2 inn).arg2⟩) ∨
        (dictLookup (registered_approval_distances env) main = none ∧
          get_approval_distance env e1 e2 did =
            .ok ⟨.noneV, ["No such distance as: " ++ main ++ "!"], [],
              e1, e2⟩))) := by
  cases hp : _extract_distance_id did with
  | error e =>
      left
      refine ⟨e, rfl, ?_⟩
      unfold get_approval_distance
      rw [hp]
  | ok p =>
      obtain ⟨inn, main⟩ := p
      right
      refine ⟨inn, main, rfl, ?_⟩
      cases hl : dictLookup (registered_approval_distances env) main with
      | some f =>
          left
          refine ⟨f, rfl, ?_⟩
          cases inn <;>
            simp only [get_approval_distance, hp, hl]
      | none =>
          right
          refine ⟨rfl, ?_⟩
          simp only [get_approval_distance, hp, hl]

theorem get_ordinal_cases (env : MetricEnv) (e1 e2 : Election)
    (did : Option String) :
    (∃ e, _extract_distance_id did = .error e ∧
        get_ordinal_distance env e1 e2 did = .error e) ∨
    (∃ inn main, _extract_distance_id did = .ok (inn, main) ∧
      ((∃ f, dictLookup (registered_ordinal_distances env) main = some f ∧
          get_ordinal_distance env e1 e2 did =
            .ok ⟨pyRetOf (f e1 e2 inn).ret, [], [main],
              (f e1 e2 inn).arg1, (f e1 e2 inn).arg2⟩) ∨
        (dictLookup (registered_ordinal_distances env) main = none ∧
          get_ordinal_distance env e1 e2 did =
            .ok ⟨.noneV, ["No such distance as: " ++ main ++ "!"], [],
              e1, e2⟩))) := by
  cases hp : _extract_distance_id did with
  | error e =>
      left
      refine ⟨e, rfl, ?_⟩
      unfold get_ordinal_distance
      rw [hp]
  | ok p =>
      obtain ⟨inn, main⟩ := p
      right
      refine ⟨inn, main, rfl, ?_⟩
      cases hl : dictLookup (registered_ordinal_distances env) main with
      | some f =>
          left
          refine ⟨f, rfl, ?_⟩
          cases inn <;>
            simp only [get_ordinal_distance, hp, hl]
      | none =>
          right
          refine ⟨rfl, ?_⟩
          simp only [get_ordinal_distance, hp, hl]


/-! ### Claim theorems: parser and dispatcher -/

/-- **C7**: the identifier parser maps `"swap"` to (inner none, main
`"swap"` unchanged); maps `"l1-positionwise"` to main `"positionwise"`
with the inner name resolved through the element-level lookup
(`map_str_to_func "l1"`); and fails on `"a-b-c"` (two separators) instead
of guessing a split. -/
theorem extract_distance_id_roundtrip :
    _extract_distance_id (some "swap") = Except.ok (none, "swap") ∧
    _extract_distance_id (some "l1-positionwise") =
      Except.ok (some InnerFn.l1, "positionwise") ∧
    map_str_to_func "l1" = Except.ok InnerFn.l1 ∧
    _extract_distance_id (some "a-b-c") = Except.error PyError.valueError :=
  ⟨rfl, rfl, rfl, rfl⟩

/-- **C9**: with the default `distance_id = None`, `_extract_distance_id`
raises `TypeError` (the separator membership test is applied to `None`),
so `get_approval_distance`, `get_ordinal_distance`, and — for any
same-family pair — `get_distance` raise instead of returning a result. -/
theorem default_distance_id_raises :
    _extract_distance_id none = Except.error PyError.typeError ∧
    (∀ env e1 e2, e1.cls = PyClass.ApprovalElection →
        e2.cls = PyClass.ApprovalElection →
        get_distance env e1 e2 none = Except.error PyError.typeError) ∧
    (∀ env e1 e2, e1.cls = PyClass.OrdinalElection →
        e2.cls = PyClass.OrdinalElection →
        get_distance env e1 e2 none = Except.error PyError.typeError) ∧
    (∀ env e1 e2, get_approval_distance env e1 e2 none =
        Except.error PyError.typeError) ∧
    (∀ env e1 e2, get_ordinal_distance env e1 e2 none =
        Except.error PyError.typeError) := by
  refine ⟨rfl, ?_, ?_, fun env e1 e2 => rfl, fun env e1 e2 => rfl⟩
  · intro env e1 e2 h1 h2
    unfold get_distance
    rw [if_pos ⟨h1, h2⟩]
    rfl
  · intro env e1 e2 h1 h2
    have n1 : ¬(e1.cls = PyClass.ApprovalElection ∧
        e2.cls = PyClass.ApprovalElection) := by
      rintro ⟨a1, _⟩
      rw [h1] at a1
      cases a1
    unfold get_distance
    rw [if_neg n1, if_pos ⟨h1, h2⟩]
    rfl

/-- **C9 witness**: two concrete ordinal elections with `distance_id =
None` make `get_distance` raise `TypeError`. -/
theorem default_distance_id_raises_witness :
    get_distance sampleEnv (ordInstances 0) (ordInstances 1) none =
      Except.error PyError.typeError :=
  default_distance_id_raises.2.2.1 sampleEnv (ordInstances 0) (ordInstances 1)
    rfl rfl

/-- **C4**: a registry metric is invoked only when the two instances have
the same exact runtime class (both `ApprovalElection` or both
`OrdinalElection`); for any other combination — in particular one
approval and one ordinal election — `get_distance` logs the
`No such instance!` warning, invokes no metric, and returns `None`. -/
theorem metric_only_same_family :
    (∀ env e1 e2 did out, get_distance env e1 e2 did = Except.ok out →
        out.invoked ≠ [] →
        (e1.cls = PyClass.ApprovalElection ∧
            e2.cls = PyClass.ApprovalElection) ∨
        (e1.cls = PyClass.OrdinalElection ∧
            e2.cls = PyClass.OrdinalElection)) ∧
    (∀ env e1 e2 did,
        ¬((e1.cls = PyClass.ApprovalElection ∧
            e2.cls = PyClass.ApprovalElection) ∨
          (e1.cls = PyClass.OrdinalElection ∧
            e2.cls = PyClass.OrdinalElection)) →
        get_distance env e1 e2 did =
          Except.ok ⟨PyRet.noneV, ["No such instance!"], [], e1, e2⟩) := by
  constructor
  · intro env e1 e2 did out h hinv
    unfold get_distance at h
    split_ifs at h with h1 h2
    · exact Or.inl h1
    · exact Or.inr h2
    · cases h
      simp at hinv
  · intro env e1 e2 did hmix
    unfold get_distance
    rw [if_neg (fun hc => hmix (Or.inl hc)),
      if_neg (fun hc => hmix (Or.inr hc))]

/-- **C4 witness**: an `ApprovalElection` against an `OrdinalElection` is
skipped with the warning and without invoking any metric. -/
theorem metric_only_same_family_witness :
    get_distance sampleEnv ⟨PyClass.ApprovalElection, 0⟩
        ⟨PyClass.OrdinalElection, 1⟩ (some "swap") =
      Except.ok ⟨PyRet.noneV, ["No such instance!"], [],
        ⟨PyClass.ApprovalElection, 0⟩, ⟨PyClass.OrdinalElection, 1⟩⟩ :=
  metric_only_same_family.2 sampleEnv ⟨PyClass.ApprovalElection, 0⟩
    ⟨PyClass.OrdinalElection, 1⟩ (some "swap") (by rintro (⟨_, h⟩ | ⟨h, _⟩) <;> cases h)

/-- **C5**: when the parsed main distance name is not a key of the
corresponding registry, `get_approval_distance` / `get_ordinal_distance`
invoke no metric, log the `No such distance as: ...` warning, return
`None`, and substitute nothing. -/
theorem unknown_distance_not_invoked :
    (∀ env e1 e2 did inn main,
        _extract_distance_id did = Except.ok (inn, main) →
        dictLookup (registered_approval_distances env) main = none →
        get_approval_distance env e1 e2 did =
          Except.ok ⟨PyRet.noneV,
            ["No such distance as: " ++ main ++ "!"], [], e1, e2⟩) ∧
    (∀ env e1 e2 did inn main,
        _extract_distance_id did = Except.ok (inn, main) →
        dictLookup (registered_ordinal_distances env) main = none →
        get_ordinal_distance env e1 e2 did =
          Except.ok ⟨PyRet.noneV,
            ["No such distance as: " ++ main ++ "!"], [], e1, e2⟩) := by
  constructor
  · intro env e1 e2 did inn main hp hl
    simp only [get_approval_distance, hp, hl]
  · intro env e1 e2 did inn main hp hl
    simp only [get_ordinal_distance, hp, hl]

/-- **C5 witness**: requesting the unregistered main distance
`"nonexistent"` for two approval elections yields the warning outcome
with no metric invoked. -/
theorem unknown_distance_not_invoked_witness :
    get_approval_distance sampleEnv ⟨PyClass.ApprovalElection, 0⟩
        ⟨PyClass.ApprovalElection, 1⟩ (some "nonexistent") =
      Except.ok ⟨PyRet.noneV, ["No such distance as: nonexistent!"], [],
        ⟨PyClass.ApprovalElection, 0⟩, ⟨PyClass.ApprovalElection, 1⟩⟩ :=
  unknown_distance_not_invoked.1 sampleEnv ⟨PyClass.ApprovalElection, 0⟩
    ⟨PyClass.ApprovalElection, 1⟩ (some "nonexistent") none "nonexistent"
    rfl rfl

/-- **C10**: family dispatch uses exact type identity
(`type(x) is ApprovalElection`), not subtype checking: whenever one of the
two instances is of a strict subclass of `ApprovalElection` (or of
`OrdinalElection`) — even though both are the same family by
inheritance — the pair is treated as a family mismatch: the warning
outcome is returned and no metric is invoked. -/
theorem subclass_treated_as_mismatch :
    (∀ env e1 e2 did, isinstance_approval e1.cls = true →
        isinstance_approval e2.cls = true →
        (e1.cls = PyClass.SubApprovalElection ∨
            e2.cls = PyClass.SubApprovalElection) →
        get_distance env e1 e2 did =
          Except.ok ⟨PyRet.noneV, ["No such instance!"], [], e1, e2⟩) ∧
    (∀ env e1 e2 did, isinstance_ordinal e1.cls = true →
        isinstance_ordinal e2.cls = true →
        (e1.cls = PyClass.SubOrdinalElection ∨
            e2.cls = PyClass.SubOrdinalElection) →
        get_distance env e1 e2 did =
          Except.ok ⟨PyRet.noneV, ["No such instance!"], [], e1, e2⟩) := by
  constructor
  · intro env e1 e2 did hi1 hi2 hsub
    have n1 : ¬(e1.cls = PyClass.ApprovalElection ∧
        e2.cls = PyClass.ApprovalElection) := by
      rintro ⟨a1, a2⟩
      rcases hsub with h | h
      · rw [a1] at h; cases h
      · rw [a2] at h; cases h
    have n2 : ¬(e1.cls = PyClass.OrdinalElection ∧
        e2.cls = PyClass.OrdinalElection) := by
      rintro ⟨a1, _⟩
      rw [a1] at hi1
      simp [isinstance_approval] at hi1
    unfold get_distance
    rw [if_neg n1, if_neg n2]
  · intro env e1 e2 did hi1 hi2 hsub
    have n1 : ¬(e1.cls = PyClass.ApprovalElection ∧
        e2.cls = PyClass.ApprovalElection) := by
      rintro ⟨a1, _⟩
      rw [a1] at hi1
      simp [isinstance_ordinal] at hi1
    have n2 : ¬(e1.cls = PyClass.OrdinalElection ∧
        e2.cls = PyClass.OrdinalElection) := by
      rintro ⟨a1, a2⟩
      rcases hsub with h | h
      · rw [a1] at h; cases h
      · rw [a2] at h; cases h
    unfold get_distance
    rw [if_neg n1, if_neg n2]

/-- **C10 witness**: an approval-subclass instance against a plain
`ApprovalElection` is rejected as a family mismatch. -/
theorem subclass_treated_as_mismatch_witness :
    get_distance sampleEnv ⟨PyClass.SubApprovalElection, 0⟩
        ⟨PyClass.ApprovalElection, 1⟩ (some "approvalwise") =
      Except.ok ⟨PyRet.noneV, ["No such instance!"], [],
        ⟨PyClass.SubApprovalElection, 0⟩, ⟨PyClass.ApprovalElection, 1⟩⟩ :=
  subclass_treated_as_mismatch.1 sampleEnv ⟨PyClass.SubApprovalElection, 0⟩
    ⟨PyClass.ApprovalElection, 1⟩ (some "approvalwise") rfl rfl (Or.inl rfl)


/-! ### Scheduler lemmas -/

theorem bind_error_eq {σ τ : Type} (e : PyError) (f : σ → Except PyError τ) :
    (Except.error e >>= f) = Except.error e := rfl

theorem bind_ok_eq {σ τ : Type} (s : σ) (f : σ → Except PyError τ) :
    (Except.ok s >>= f) = f s := rfl

theorem run_single_cons (env : MetricEnv) (safe : Bool) (x : (ℕ × ℕ) × ℚ)
    (xs : List ((ℕ × ℕ) × ℚ)) (st : RunState) :
    run_single_process env (x :: xs) safe st =
      processPair env safe st x >>= fun s => run_single_process env xs safe s :=
  foldl_except_cons (fun s pr => processPair env safe s pr) x xs st

theorem run_workers_cons (env : MetricEnv) (p : List ((ℕ × ℕ) × ℚ))
    (ps : List (List ((ℕ × ℕ) × ℚ))) (st : RunState) :
    run_multiple_workers env (p :: ps) st =
      run_multiple_processes env p st >>= fun s =>
        run_multiple_workers env ps s :=
  foldl_except_cons (fun s part => run_multiple_processes env part s) p ps st

theorem run_multiple_eq (env : MetricEnv) (l : List ((ℕ × ℕ) × ℚ))
    (st : RunState) :
    run_multiple_processes env l st = run_single_process env l true st := by
  unfold run_multiple_processes
  cases h : l.foldl
      (fun acc pr => acc >>= fun s => processPair env true s pr)
      (Except.ok st) with
  | error e => exact h.symm
  | ok st' =>
      rw [show run_single_process env l true st = Except.ok st' from h]
      exact ite_self _

theorem processPair_sym (env : MetricEnv) (safe : Bool) (st : RunState)
    (pr : (ℕ × ℕ) × ℚ) (st' : RunState)
    (h : processPair env safe st pr = .ok st')
    (hd : SymMat st.distances) (ht : SymMat st.times) :
    SymMat st'.distances ∧ SymMat st'.times := by
  unfold processPair at h
  cases hg : get_distance env (st.exp.instances pr.1.1)
      (st.exp.instances pr.1.2) st.exp.distance_id with
  | error e => rw [hg] at h; cases h
  | ok out =>
      rw [hg] at h
      cases h
      exact ⟨SymMat.write2 hd _ _ _, SymMat.write2 ht _ _ _⟩

theorem run_single_sym (env : MetricEnv) (safe : Bool) :
    ∀ (l : List ((ℕ × ℕ) × ℚ)) (st st' : RunState),
      run_single_process env l safe st = .ok st' →
      SymMat st.distances → SymMat st.times →
      SymMat st'.distances ∧ SymMat st'.times := by
  intro l
  induction l with
  | nil =>
      intro st st' h hd ht
      cases h
      exact ⟨hd, ht⟩
  | cons x xs ih =>
      intro st st' h hd ht
      rw [run_single_cons] at h
      cases hx : processPair env safe st x with
      | error e => rw [hx, bind_error_eq] at h; cases h
      | ok s =>
          rw [hx, bind_ok_eq] at h
          obtain ⟨hd', ht'⟩ := processPair_sym env safe st x s hx hd ht
          exact ih s st' h hd' ht'

theorem processPair_exp_safe (env : MetricEnv) (st : RunState)
    (pr : (ℕ × ℕ) × ℚ) (st' : RunState)
    (h : processPair env true st pr = .ok st') : st'.exp = st.exp := by
  unfold processPair at h
  cases hg : get_distance env (st.exp.instances pr.1.1)
      (st.exp.instances pr.1.2) st.exp.distance_id with
  | error e => rw [hg] at h; cases h
  | ok out =>
      rw [hg] at h
      cases h
      rfl

theorem run_single_safe_exp (env : MetricEnv) :
    ∀ (l : List ((ℕ × ℕ) × ℚ)) (st st' : RunState),
      run_single_process env l true st = .ok st' → st'.exp = st.exp := by
  intro l
  induction l with
  | nil => intro st st' h; cases h; rfl
  | cons x xs ih =>
      intro st st' h
      rw [run_single_cons] at h
      cases hx : processPair env true st x with
      | error e => rw [hx, bind_error_eq] at h; cases h
      | ok s =>
          rw [hx, bind_ok_eq] at h
          exact (ih s st' h).trans (processPair_exp_safe env st x s hx)

theorem run_workers_exp (env : MetricEnv) :
    ∀ (parts : List (List ((ℕ × ℕ) × ℚ))) (st st' : RunState),
      run_multiple_workers env parts st = .ok st' → st'.exp = st.exp := by
  intro parts
  induction parts with
  | nil => intro st st' h; cases h; rfl
  | cons p ps ih =>
      intro st st' h
      rw [run_workers_cons] at h
      cases hx : run_multiple_processes env p st with
      | error e => rw [hx, bind_error_eq] at h; cases h
      | ok s =>
          rw [hx, bind_ok_eq] at h
          rw [run_multiple_eq] at hx
          exact (ih s st' h).trans (run_single_safe_exp env p st s hx)

/-! ### Claim theorems: schedulers -/

/-- **C1**: after either scheduler run, whatever the request list, the
distances and times matrices are symmetric (each pair write mirrors the
cell into the transposed position), provided the caller handed over
symmetric — e.g. empty — matrices; in particular
`distances[i][j] = distances[j][i]` and `times[i][j] = times[j][i]` for
every computed pair. -/
theorem result_matrices_symmetric :
    (∀ env l safe st st', run_single_process env l safe st = .ok st' →
        SymMat st.distances → SymMat st.times →
        (∀ i j, st'.distances i j = st'.distances j i) ∧
        (∀ i j, st'.times i j = st'.times j i)) ∧
    (∀ env l st st', run_multiple_processes env l st = .ok st' →
        SymMat st.distances → SymMat st.times →
        (∀ i j, st'.distances i j = st'.distances j i) ∧
        (∀ i j, st'.times i j = st'.times j i)) := by
  constructor
  · intro env l safe st st' h hd ht
    exact run_single_sym env safe l st st' h hd ht
  · intro env l st st' h hd ht
    rw [run_multiple_eq] at h
    exact run_single_sym env true l st st' h hd ht

/-- **C1 witness**: a concrete two-pair single-worker run from empty
matrices has `distances[0][1] = distances[1][0]`. -/
theorem result_matrices_symmetric_witness :
    (resultOr (run_single_process sampleEnv [((0, 1), 5), ((2, 3), 7)] false
        (initState ordExp)) (initState ordExp)).distances 0 1 =
    (resultOr (run_single_process sampleEnv [((0, 1), 5), ((2, 3), 7)] false
        (initState ordExp)) (initState ordExp)).distances 1 0 :=
  (result_matrices_symmetric.1 sampleEnv [((0, 1), 5), ((2, 3), 7)] false
    (initState ordExp)
    (resultOr (run_single_process sampleEnv [((0, 1), 5), ((2, 3), 7)] false
      (initState ordExp)) (initState ordExp))
    rfl (fun _ _ => rfl) (fun _ _ => rfl)).1 0 1

/-- **C8**: with safe mode in the single-worker scheduler — and always in
the multi-worker scheduler — instances are deep-copied before each
dispatch, so even metrics that mutate their arguments leave
`exp.instances` unchanged after the run. -/
theorem safe_mode_isolation :
    (∀ env l st st', run_single_process env l true st = .ok st' →
        ∀ k, st'.exp.instances k = st.exp.instances k) ∧
    (∀ env l st st', run_multiple_processes env l st = .ok st' →
        ∀ k, st'.exp.instances k = st.exp.instances k) ∧
    (∀ env parts st st', run_multiple_workers env parts st = .ok st' →
        ∀ k, st'.exp.instances k = st.exp.instances k) := by
  refine ⟨?_, ?_, ?_⟩
  · intro env l st st' h k
    rw [run_single_safe_exp env l st st' h]
  · intro env l st st' h k
    rw [run_multiple_eq] at h
    rw [run_single_safe_exp env l st st' h]
  · intro env parts st st' h k
    rw [run_workers_exp env parts st st' h]

/-- **C8 witness**: a run over a metric environment in which every metric
mutates its first argument still leaves the stored instance 0 unchanged
in safe mode. -/
theorem safe_mode_isolation_witness :
    (resultOr (run_single_process mutEnv [((0, 1), 5)] true
        (initState ordExp)) (initState ordExp)).exp.instances 0 =
      ordInstances 0 :=
  safe_mode_isolation.1 mutEnv [((0, 1), 5)] (initState ordExp)
    (resultOr (run_single_process mutEnv [((0, 1), 5)] true
      (initState ordExp)) (initState ordExp)) rfl 0


theorem gd_none_warn (env : MetricEnv) (e1 e2 : Election)
    (did : Option String) (out : CallOutcome)
    (h : get_distance env e1 e2 did = .ok out)
    (hr : out.ret = PyRet.noneV) : out.warnings ≠ [] := by
  unfold get_distance at h
  split_ifs at h with h1 h2
  · rcases get_approval_cases env e1 e2 did with
      ⟨e, _, he⟩ | ⟨inn, main, _, ⟨f, _, hok⟩ | ⟨_, hok⟩⟩
    · rw [he] at h; cases h
    · rw [hok] at h
      cases h
      cases hmr : (f e1 e2 inn).ret <;> rw [hmr] at hr <;> cases hr
    · rw [hok] at h
      cases h
      simp
  · rcases get_ordinal_cases env e1 e2 did with
      ⟨e, _, he⟩ | ⟨inn, main, _, ⟨f, _, hok⟩ | ⟨_, hok⟩⟩
    · rw [he] at h; cases h
    · rw [hok] at h
      cases h
      cases hmr : (f e1 e2 inn).ret <;> rw [hmr] at hr <;> cases hr
    · rw [hok] at h
      cases h
      simp
  · cases h
    simp

/-- **C3 counterexample**: the claim says a pair reported as a family
mismatch or unknown distance leaves its distance and time cells
untouched.  On the concrete mismatched pair (0, 1) of `mixedExp` the
single-worker scheduler nevertheless writes Python `None` into
`distances[0][1]` and `distances[1][0]` and records the elapsed time;
only the matchings cells stay absent. -/
theorem skipped_pair_cells_touched :
    (run_single_process sampleEnv [((0, 1), 5)] false
        (initState mixedExp)).map
        (fun st => (st.distances 0 1, st.distances 1 0, st.times 0 1,
          st.matchings 0 1, st.matchings 1 0)) =
      Except.ok (some none, some none, some 5, none, none) ∧
    ¬((run_single_process sampleEnv [((0, 1), 5)] false
        (initState mixedExp)).map (fun st => st.distances 0 1) =
      Except.ok none) := by
  constructor
  · rfl
  · intro h
    rw [show (run_single_process sampleEnv [((0, 1), 5)] false
        (initState mixedExp)).map (fun st => st.distances 0 1) =
        Except.ok (some none) from rfl] at h
    cases h

/-- **C3 (amended)**: for a pair reported as an unknown distance or a
family mismatch, the scheduler has logged a warning, leaves the matchings
matrix untouched and continues with the remaining pairs of the batch —
but it does not leave the distance and time cells untouched: it writes
Python `None` into `distances[i][j]` and `distances[j][i]` and records
the elapsed time in both time cells. -/
theorem skipped_pair_writes (env : MetricEnv) (safe : Bool) (st : RunState)
    (i j : ℕ) (t : ℚ) (out : CallOutcome) (st' : RunState)
    (hout : get_distance env (st.exp.instances i) (st.exp.instances j)
        st.exp.distance_id = .ok out)
    (hnone : out.ret = PyRet.noneV)
    (hrun : processPair env safe st ((i, j), t) = .ok st') :
    out.warnings ≠ [] ∧
    st'.matchings = st.matchings ∧
    st'.distances i j = some none ∧
    st'.distances j i = some none ∧
    st'.times i j = some t ∧
    st'.times j i = some t ∧
    ∀ rest, run_single_process env (((i, j), t) :: rest) safe st =
      run_single_process env rest safe st' := by
  have hwarn := gd_none_warn env (st.exp.instances i) (st.exp.instances j)
    st.exp.distance_id out hout hnone
  unfold processPair at hrun
  rw [hout] at hrun
  cases hrun
  refine ⟨hwarn, ?_, ?_, ?_, ?_, ?_, ?_⟩
  · show (match out.ret with
      | PyRet.tupleV _ m =>
          (st.matchings.set i j m).set j i (np_argsort m)
      | _ => st.matchings) = st.matchings
    rw [hnone]
  · show ((st.distances.set i j _).set j i _) i j = some none
    rw [hnone]
    exact Mat.write2_cell1 _ _ _ _
  · show ((st.distances.set i j _).set j i _) j i = some none
    rw [hnone]
    exact Mat.write2_cell2 _ _ _ _
  · show ((st.times.set i j t).set j i t) i j = some t
    exact Mat.write2_cell1 _ _ _ _
  · show ((st.times.set i j t).set j i t) j i = some t
    exact Mat.write2_cell2 _ _ _ _
  · intro rest
    rw [run_single_cons]
    unfold processPair
    rw [hout]
    rfl

/-- **C3 (amended) witness**: on the concrete mismatched pair the amended
behaviour is realized. -/
theorem skipped_pair_writes_witness :
    (resultOr (processPair sampleEnv false (initState mixedExp) ((0, 1), 5))
        (initState mixedExp)).distances 0 1 = some none :=
  (skipped_pair_writes sampleEnv false (initState mixedExp) 0 1 5
    ⟨PyRet.noneV, ["No such instance!"], [], mixedInstances 0, mixedInstances 1⟩
    (resultOr (processPair sampleEnv false (initState mixedExp) ((0, 1), 5))
      (initState mixedExp))
    rfl rfl rfl).2.2.1


/-! ### np.argsort inverts a permutation -/

theorem getD_map_nat (f : ℕ → ℕ) (l : List ℕ) (i : ℕ) (h : i < l.length) :
    (l.map f).getD i 0 = f (l.getD i 0) := by
  rw [List.getD_eq_getElem (l.map f) 0 (by simpa using h),
    List.getD_eq_getElem l 0 h, List.getElem_map]

theorem map_getD_range (l : List ℕ) :
    (List.range l.length).map (fun i => l.getD i 0) = l := by
  apply List.ext_getElem
  · simp
  · intro n h1 h2
    simp only [List.getElem_map, List.getElem_range]
    exact List.getD_eq_getElem l 0 h2

theorem np_argsort_inverse (l : List ℕ)
    (hp : List.Perm l (List.range l.length)) :
    ∀ k, k < l.length → (np_argsort l).getD (l.getD k 0) 0 = k := by
  haveI htot : IsTotal ℕ (fun i j => l.getD i 0 ≤ l.getD j 0) :=
    ⟨fun a b => Nat.le_total _ _⟩
  haveI htr : IsTrans ℕ (fun i j => l.getD i 0 ≤ l.getD j 0) :=
    ⟨fun a b c hab hbc => le_trans hab hbc⟩
  have hqperm : List.Perm (np_argsort l) (List.range l.length) :=
    List.perm_insertionSort _ _
  have hqlen : (np_argsort l).length = l.length :=
    hqperm.length_eq.trans (List.length_range l.length)
  have hsorted : List.Pairwise (fun i j => l.getD i 0 ≤ l.getD j 0)
      (np_argsort l) :=
    List.sorted_insertionSort _ _
  have hs_sorted : List.Pairwise (· ≤ ·)
      ((np_argsort l).map (fun i => l.getD i 0)) :=
    List.pairwise_map.mpr hsorted
  have h1 : List.Perm ((np_argsort l).map (fun i => l.getD i 0))
      ((List.range l.length).map (fun i => l.getD i 0)) := hqperm.map _
  rw [map_getD_range l] at h1
  have hs_perm : List.Perm ((np_argsort l).map (fun i => l.getD i 0))
      (List.range l.length) := h1.trans hp
  have hrange_sorted : List.Pairwise (· ≤ ·) (List.range l.length) :=
    (List.pairwise_lt_range l.length).imp (fun h => Nat.le_of_lt h)
  have hs_eq : (np_argsort l).map (fun i => l.getD i 0) =
      List.range l.length :=
    List.eq_of_perm_of_sorted hs_perm hs_sorted hrange_sorted
  have key : ∀ i, i < l.length →
      l.getD ((np_argsort l).getD i 0) 0 = i := by
    intro i hi
    have hiq : i < (np_argsort l).length := by rw [hqlen]; exact hi
    have e1 : ((np_argsort l).map (fun a => l.getD a 0)).getD i 0 =
        l.getD ((np_argsort l).getD i 0) 0 := getD_map_nat _ _ i hiq
    rw [hs_eq, List.getD_eq_getElem (List.range l.length) 0
      (by simpa using hi), List.getElem_range] at e1
    exact e1.symm
  intro k hk
  have hvl : l.getD k 0 ∈ l := by
    rw [List.getD_eq_getElem l 0 hk]
    exact List.getElem_mem hk
  have hv : l.getD k 0 < l.length :=
    List.mem_range.mp (hp.mem_iff.mp hvl)
  have hb0 : l.getD k 0 < (np_argsort l).length := by
    rw [hqlen]; exact hv
  have hqv_mem : (np_argsort l).getD (l.getD k 0) 0 ∈ np_argsort l := by
    rw [List.getD_eq_getElem (np_argsort l) 0 hb0]
    exact List.getElem_mem hb0
  have hb1 : (np_argsort l).getD (l.getD k 0) 0 < l.length :=
    List.mem_range.mp (hqperm.mem_iff.mp hqv_mem)
  have heq : l.getD ((np_argsort l).getD (l.getD k 0) 0) 0 = l.getD k 0 :=
    key _ hv
  have hnd : l.Nodup := hp.nodup_iff.mpr (List.nodup_range l.length)
  have hinj := List.nodup_iff_injective_get.mp hnd
  have hg : l.get ⟨(np_argsort l).getD (l.getD k 0) 0, hb1⟩ =
      l.get ⟨k, hk⟩ := by
    rw [List.get_eq_getElem, List.get_eq_getElem,
      ← List.getD_eq_getElem l 0 hb1, ← List.getD_eq_getElem l 0 hk]
    exact heq
  exact congrArg Fin.val (hinj hg)

/-- **C2**: when the metric returned a `(scalar, alignment)` tuple whose
alignment is a permutation, the scheduler stores the alignment as
`matchings[i][j]` and stores `np.argsort` of it as `matchings[j][i]`,
which is exactly the inverse permutation:
`matchings[j][i][p[k]] = k` for every valid `k`. -/
theorem matching_inversion (env : MetricEnv) (safe : Bool) (st : RunState)
    (i j : ℕ) (t : ℚ) (d : ℚ) (m : List ℕ) (out : CallOutcome)
    (st' : RunState)
    (hout : get_distance env (st.exp.instances i) (st.exp.instances j)
        st.exp.distance_id = .ok out)
    (hret : out.ret = PyRet.tupleV d m)
    (hij : i ≠ j)
    (hperm : List.Perm m (List.range m.length))
    (hrun : processPair env safe st ((i, j), t) = .ok st') :
    st'.matchings i j = some m ∧
    st'.matchings j i = some (np_argsort m) ∧
    (∀ k, k < m.length → (np_argsort m).getD (m.getD k 0) 0 = k) := by
  unfold processPair at hrun
  rw [hout] at hrun
  cases hrun
  refine ⟨?_, ?_, np_argsort_inverse m hperm⟩
  · show (match out.ret with
      | PyRet.tupleV _ mm => (st.matchings.set i j mm).set j i (np_argsort mm)
      | _ => st.matchings) i j = some m
    rw [hret]
    show ((st.matchings.set i j m).set j i (np_argsort m)) i j = some m
    rw [Mat.set_miss _ _ (fun hc => hij hc.1), Mat.set_hit]
  · show (match out.ret with
      | PyRet.tupleV _ mm => (st.matchings.set i j mm).set j i (np_argsort mm)
      | _ => st.matchings) j i = some (np_argsort m)
    rw [hret]
    exact Mat.set_hit _ _ _ _

/-- **C2 witness**: the concrete metric tuple `(1, [1, 2, 0])` is stored
as `matchings[0][1]`, and the stored inverse satisfies the inversion
equation at `k = 0`. -/
theorem matching_inversion_witness :
    (resultOr (processPair sampleEnv false (initState ordExp) ((0, 1), 5))
        (initState ordExp)).matchings 0 1 = some [1, 2, 0] ∧
    (np_argsort [1, 2, 0]).getD ([1, 2, 0].getD 0 0) 0 = 0 := by
  constructor
  · exact (matching_inversion sampleEnv false (initState ordExp) 0 1 5 1
      [1, 2, 0]
      ⟨PyRet.tupleV 1 [1, 2, 0], [], ["swap"], ordInstances 0, ordInstances 1⟩
      (resultOr (processPair sampleEnv false (initState ordExp) ((0, 1), 5))
        (initState ordExp))
      rfl rfl (by decide) (by decide) rfl).1
  · exact (matching_inversion sampleEnv false (initState ordExp) 0 1 5 1
      [1, 2, 0]
      ⟨PyRet.tupleV 1 [1, 2, 0], [], ["swap"], ordInstances 0, ordInstances 1⟩
      (resultOr (processPair sampleEnv false (initState ordExp) ((0, 1), 5))
        (initState ordExp))
      rfl rfl (by decide) (by decide) rfl).2.2 0 (by decide)


/-! ### Equivalence of the two execution modes: projection lemmas -/

theorem gd_error_parse (env : MetricEnv) (e1 e2 : Election)
    (did : Option String) (e : PyError)
    (h : get_distance env e1 e2 did = .error e) :
    _extract_distance_id did = .error e := by
  unfold get_distance at h
  split_ifs at h with h1 h2
  · rcases get_approval_cases env e1 e2 did with
      ⟨e0, hp, he⟩ | ⟨inn, main, _, ⟨f, _, hok⟩ | ⟨_, hok⟩⟩
    · rw [he] at h
      cases h
      exact hp
    · rw [hok] at h; cases h
    · rw [hok] at h; cases h
  · rcases get_ordinal_cases env e1 e2 did with
      ⟨e0, hp, he⟩ | ⟨inn, main, _, ⟨f, _, hok⟩ | ⟨_, hok⟩⟩
    · rw [he] at h
      cases h
      exact hp
    · rw [hok] at h; cases h
    · rw [hok] at h; cases h

theorem gd_pure_args (env : MetricEnv) (hpe : PureEnv env)
    (e1 e2 : Election) (did : Option String) (out : CallOutcome)
    (h : get_distance env e1 e2 did = .ok out) :
    out.arg1 = e1 ∧ out.arg2 = e2 := by
  unfold get_distance at h
  split_ifs at h with h1 h2
  · rcases get_approval_cases env e1 e2 did with
      ⟨e0, _, he⟩ | ⟨inn, main, _, ⟨f, hf, hok⟩ | ⟨_, hok⟩⟩
    · rw [he] at h; cases h
    · rw [hok] at h
      cases h
      have hfmem : f ∈ (registered_approval_distances env ++
          registered_ordinal_distances env).map Prod.snd := by
        rw [List.map_append]
        exact List.mem_append_left _ (dictLookup_mem hf)
      exact hpe f hfmem e1 e2 inn
    · rw [hok] at h
      cases h
      exact ⟨rfl, rfl⟩
  · rcases get_ordinal_cases env e1 e2 did with
      ⟨e0, _, he⟩ | ⟨inn, main, _, ⟨f, hf, hok⟩ | ⟨_, hok⟩⟩
    · rw [he] at h; cases h
    · rw [hok] at h
      cases h
      have hfmem : f ∈ (registered_approval_distances env ++
          registered_ordinal_distances env).map Prod.snd := by
        rw [List.map_append]
        exact List.mem_append_right _ (dictLookup_mem hf)
      exact hpe f hfmem e1 e2 inn
    · rw [hok] at h
      cases h
      exact ⟨rfl, rfl⟩
  · cases h
    exact ⟨rfl, rfl⟩

theorem updInst_self (f : ℕ → Election) (i : ℕ) : updInst f i (f i) = f := by
  funext k
  unfold updInst
  by_cases h : k = i
  · rw [if_pos h, h]
  · rw [if_neg h]

theorem processPair_exp_pure (env : MetricEnv) (hpe : PureEnv env)
    (safe : Bool) (st : RunState) (pr : (ℕ × ℕ) × ℚ) (st' : RunState)
    (h : processPair env safe st pr = .ok st') : st'.exp = st.exp := by
  unfold processPair at h
  cases hg : get_distance env (st.exp.instances pr.1.1)
      (st.exp.instances pr.1.2) st.exp.distance_id with
  | error e => rw [hg] at h; cases h
  | ok out =>
      rw [hg] at h
      cases h
      obtain ⟨ha1, ha2⟩ := gd_pure_args env hpe _ _ _ out hg
      have hins : (if safe = true then st.exp.instances
          else updInst (updInst st.exp.instances pr.1.1 out.arg1) pr.1.2
            out.arg2) = st.exp.instances := by
        rw [ha1, updInst_self, ha2, updInst_self, ite_self]
      show Experiment.mk (if safe = true then st.exp.instances
          else updInst (updInst st.exp.instances pr.1.1 out.arg1) pr.1.2
            out.arg2) st.exp.distance_id st.exp.is_exported = st.exp
      rw [hins]

theorem processPair_dm (env : MetricEnv) (safe : Bool) (st : RunState)
    (pr : (ℕ × ℕ) × ℚ) (st' : RunState)
    (h : processPair env safe st pr = .ok st') :
    dmStep env st.exp st.dm pr.1 = .ok st'.dm := by
  unfold processPair at h
  cases hg : get_distance env (st.exp.instances pr.1.1)
      (st.exp.instances pr.1.2) st.exp.distance_id with
  | error e => rw [hg] at h; cases h
  | ok out =>
      rw [hg] at h
      cases h
      unfold dmStep
      rw [show get_distance env (st.exp.instances pr.1.1)
        (st.exp.instances pr.1.2) st.exp.distance_id = .ok out from hg]
      rfl

theorem dm_fold_cons (env : MetricEnv) (E : Experiment) (x : ℕ × ℕ)
    (xs : List (ℕ × ℕ)) (s0 : DMState) :
    (x :: xs).foldl (fun acc p => acc >>= fun s => dmStep env E s p)
        (.ok s0) =
      dmStep env E s0 x >>= fun s =>
        xs.foldl (fun acc p => acc >>= fun s => dmStep env E s p) (.ok s) :=
  foldl_except_cons (fun s p => dmStep env E s p) x xs s0

theorem fold_pairs_dm (env : MetricEnv) (hpe : PureEnv env) (safe : Bool) :
    ∀ (l : List ((ℕ × ℕ) × ℚ)) (st st' : RunState),
      run_single_process env l safe st = .ok st' →
      st'.exp = st.exp ∧
      (l.map (fun pr => pr.1)).foldl
        (fun acc p => acc >>= fun s => dmStep env st.exp s p)
        (.ok st.dm) = .ok st'.dm := by
  intro l
  induction l with
  | nil =>
      intro st st' h
      cases h
      exact ⟨rfl, rfl⟩
  | cons x xs ih =>
      intro st st' h
      rw [run_single_cons] at h
      cases hx : processPair env safe st x with
      | error e => rw [hx, bind_error_eq] at h; cases h
      | ok s =>
          rw [hx, bind_ok_eq] at h
          have hexp : s.exp = st.exp :=
            processPair_exp_pure env hpe safe st x s hx
          obtain ⟨hexp2, hfold⟩ := ih s st' h
          refine ⟨hexp2.trans hexp, ?_⟩
          rw [List.map_cons, dm_fold_cons env st.exp x.1
            (xs.map (fun pr => pr.1)) st.dm,
            processPair_dm env safe st x s hx, bind_ok_eq]
          rw [hexp] at hfold
          exact hfold

theorem run_workers_dm (env : MetricEnv) (hpe : PureEnv env) :
    ∀ (parts : List (List ((ℕ × ℕ) × ℚ))) (st st' : RunState),
      run_multiple_workers env parts st = .ok st' →
      st'.exp = st.exp ∧
      ((parts.flatten).map (fun pr => pr.1)).foldl
        (fun acc p => acc >>= fun s => dmStep env st.exp s p)
        (.ok st.dm) = .ok st'.dm := by
  intro parts
  induction parts with
  | nil =>
      intro st st' h
      cases h
      exact ⟨rfl, rfl⟩
  | cons p ps ih =>
      intro st st' h
      rw [run_workers_cons] at h
      cases hx : run_multiple_processes env p st with
      | error e => rw [hx, bind_error_eq] at h; cases h
      | ok s =>
          rw [hx, bind_ok_eq] at h
          rw [run_multiple_eq] at hx
          obtain ⟨hexp1, hfold1⟩ := fold_pairs_dm env hpe true p st s hx
          obtain ⟨hexp2, hfold2⟩ := ih s st' h
          refine ⟨hexp2.trans hexp1, ?_⟩
          rw [show (p :: ps).flatten = p ++ ps.flatten from rfl,
            List.map_append, List.foldl_append, hfold1]
          rw [hexp1] at hfold2
          exact hfold2


/-! ### Equivalence of the two execution modes: commutation -/

theorem Mat.write2_comm2 {α : Type} (m : Mat α) (a b c d : ℕ)
    (v v2 w w2 : α)
    (_h1 : ¬(c = a ∧ d = b)) (_h2 : ¬(c = b ∧ d = a))
    (_h3 : ¬(d = a ∧ c = b)) (_h4 : ¬(d = b ∧ c = a)) :
    (((m.set a b v).set b a v2).set c d w).set d c w2 =
    (((m.set c d w).set d c w2).set a b v).set b a v2 := by
  funext p q
  simp only [Mat.set]
  split_ifs <;> first | rfl | omega

theorem dmStep_error_shift (env : MetricEnv) (E : Experiment)
    (s s2 : DMState) (p : ℕ × ℕ) (e : PyError)
    (h : dmStep env E s p = .error e) : dmStep env E s2 p = .error e := by
  unfold dmStep at h ⊢
  cases hg : get_distance env (E.instances p.1) (E.instances p.2)
      E.distance_id with
  | error e2 =>
      rw [hg] at h
      exact h
  | ok out => rw [hg] at h; cases h

theorem dmStep_error_det (env : MetricEnv) (E : Experiment)
    (s s2 : DMState) (p q : ℕ × ℕ) (e1 e2 : PyError)
    (h1 : dmStep env E s p = .error e1)
    (h2 : dmStep env E s2 q = .error e2) : e1 = e2 := by
  unfold dmStep at h1 h2
  cases hgp : get_distance env (E.instances p.1) (E.instances p.2)
      E.distance_id with
  | error ep =>
      rw [hgp] at h1
      cases h1
      cases hgq : get_distance env (E.instances q.1) (E.instances q.2)
          E.distance_id with
      | error eq2 =>
          rw [hgq] at h2
          cases h2
          have a1 := gd_error_parse env (E.instances p.1) (E.instances p.2)
            E.distance_id e1 hgp
          have a2 := gd_error_parse env (E.instances q.1) (E.instances q.2)
            E.distance_id e2 hgq
          rw [a1] at a2
          cases a2
          rfl
      | ok o => rw [hgq] at h2; cases h2
  | ok o => rw [hgp] at h1; cases h1

theorem dmStep_ok_inv (env : MetricEnv) (E : Experiment) (s : DMState)
    (p : ℕ × ℕ) (s2 : DMState) (h : dmStep env E s p = .ok s2) :
    ∃ out, get_distance env (E.instances p.1) (E.instances p.2)
        E.distance_id = .ok out ∧ s2 = dmWrite s p out.ret := by
  unfold dmStep at h
  cases hg : get_distance env (E.instances p.1) (E.instances p.2)
      E.distance_id with
  | error e => rw [hg] at h; cases h
  | ok out =>
      rw [hg] at h
      cases h
      refine ⟨out, rfl, ?_⟩
      cases hr : out.ret <;> rfl

theorem dmStep_ok_write (env : MetricEnv) (E : Experiment) (s : DMState)
    (p : ℕ × ℕ) (out : CallOutcome)
    (hg : get_distance env (E.instances p.1) (E.instances p.2)
      E.distance_id = .ok out) :
    dmStep env E s p = .ok (dmWrite s p out.ret) := by
  cases hd : dmStep env E s p with
  | error e =>
      unfold dmStep at hd
      rw [hg] at hd
      cases hd
  | ok s2 =>
      obtain ⟨out2, hg2, hw⟩ := dmStep_ok_inv env E s p s2 hd
      rw [hg] at hg2
      cases hg2
      rw [hw]

theorem dmWrite_comm (s : DMState) (x y : ℕ × ℕ) (rx ry : PyRet)
    (hxy : ¬ sameKey x y) :
    dmWrite (dmWrite s x rx) y ry = dmWrite (dmWrite s y ry) x rx := by
  obtain ⟨x1, x2⟩ := x
  obtain ⟨y1, y2⟩ := y
  have hne1 : ¬(y1 = x1 ∧ y2 = x2) := by
    intro hc
    refine hxy (Or.inl ?_)
    show (x1, x2) = (y1, y2)
    rw [hc.1, hc.2]
  have hne2 : ¬(y1 = x2 ∧ y2 = x1) := by
    intro hc
    refine hxy (Or.inr ?_)
    show (x1, x2) = (y2, y1)
    rw [hc.1, hc.2]
  have hne3 : ¬(y2 = x1 ∧ y1 = x2) := by
    intro hc
    refine hxy (Or.inr ?_)
    show (x1, x2) = (y2, y1)
    rw [hc.1, hc.2]
  have hne4 : ¬(y2 = x2 ∧ y1 = x1) := by
    intro hc
    refine hxy (Or.inl ?_)
    show (x1, x2) = (y1, y2)
    rw [hc.1, hc.2]
  refine DMState.ext ?_ ?_
  · exact Mat.write2_comm2 s.distances x1 x2 y1 y2 (dvalOf rx)
      (dvalOf rx) (dvalOf ry) (dvalOf ry) hne1 hne2 hne3 hne4
  · show mwrite (mwrite s.matchings (x1, x2) rx) (y1, y2) ry =
      mwrite (mwrite s.matchings (y1, y2) ry) (x1, x2) rx
    cases rx with
    | tupleV dx mx =>
        cases ry with
        | tupleV dy my =>
            exact Mat.write2_comm2 s.matchings x1 x2 y1 y2 mx
              (np_argsort mx) my (np_argsort my) hne1 hne2 hne3 hne4
        | scalarV dy => rfl
        | noneV => rfl
    | scalarV dx => cases ry <;> rfl
    | noneV => cases ry <;> rfl

theorem dmStepE_comm (env : MetricEnv) (E : Experiment) (x y : ℕ × ℕ)
    (hxy : ¬ sameKey x y) (z : Except PyError DMState) :
    ((z >>= fun s => dmStep env E s x) >>= fun s => dmStep env E s y) =
    ((z >>= fun s => dmStep env E s y) >>= fun s => dmStep env E s x) := by
  cases z with
  | error e => rfl
  | ok s =>
      rw [bind_ok_eq, bind_ok_eq]
      cases hx : dmStep env E s x with
      | error ex =>
          rw [bind_error_eq]
          cases hy : dmStep env E s y with
          | error ey =>
              rw [bind_error_eq]
              rw [dmStep_error_det env E s s x y ex ey hx hy]
          | ok sy =>
              rw [bind_ok_eq]
              exact (dmStep_error_shift env E s sy x ex hx).symm
      | ok sx =>
          rw [bind_ok_eq]
          cases hy : dmStep env E s y with
          | error ey =>
              rw [bind_error_eq]
              exact dmStep_error_shift env E s sx y ey hy
          | ok sy =>
              rw [bind_ok_eq]
              obtain ⟨ox, hgx, hsx⟩ := dmStep_ok_inv env E s x sx hx
              obtain ⟨oy, hgy, hsy⟩ := dmStep_ok_inv env E s y sy hy
              subst hsx hsy
              rw [dmStep_ok_write env E (dmWrite s x ox.ret) y oy hgy,
                dmStep_ok_write env E (dmWrite s y oy.ret) x ox hgx,
                dmWrite_comm s x y ox.ret oy.ret hxy]

/-- **C6**: with the metrics side-effect-free (the only situation in which
the two modes even receive the same instance objects), running the
single-worker scheduler over a pair list and running the multi-worker
scheduler over any disjoint partition of it — the pair keys of the list
being pairwise distinct as unordered pairs — produce identical distances
and matchings matrices; the recorded times (the oracle inputs) may
differ arbitrarily between the two runs. -/
theorem single_multi_equivalence (env : MetricEnv) (hpe : PureEnv env)
    (l : List ((ℕ × ℕ) × ℚ)) (parts : List (List ((ℕ × ℕ) × ℚ)))
    (safe : Bool) (st0 st1 st2 : RunState)
    (hdisj : (l.map (fun pr => pr.1)).Pairwise (fun p q => ¬ sameKey p q))
    (hperm : List.Perm ((parts.flatten).map (fun pr => pr.1))
      (l.map (fun pr => pr.1)))
    (h1 : run_single_process env l safe st0 = .ok st1)
    (h2 : run_multiple_workers env parts st0 = .ok st2) :
    st1.distances = st2.distances ∧ st1.matchings = st2.matchings := by
  obtain ⟨_, hf1⟩ := fold_pairs_dm env hpe safe l st0 st1 h1
  obtain ⟨_, hf2⟩ := run_workers_dm env hpe parts st0 st2 h2
  have hsymm : Symmetric (fun p q : ℕ × ℕ => ¬ sameKey p q) := by
    intro p q hpq hqp
    apply hpq
    rcases hqp with h | h
    · exact Or.inl h.symm
    · right
      rw [h]
  have hcomm : ∀ p ∈ (parts.flatten).map (fun pr => pr.1),
      ∀ q ∈ (parts.flatten).map (fun pr => pr.1),
      ∀ z : Except PyError DMState,
        ((z >>= fun s => dmStep env st0.exp s p) >>= fun s =>
          dmStep env st0.exp s q) =
        ((z >>= fun s => dmStep env st0.exp s q) >>= fun s =>
          dmStep env st0.exp s p) := by
    intro p hp q hq z
    by_cases hpq : p = q
    · subst hpq; rfl
    · have hp2 := hperm.mem_iff.mp hp
      have hq2 := hperm.mem_iff.mp hq
      have hnk : ¬ sameKey p q :=
        List.Pairwise.forall hsymm hdisj hp2 hq2 hpq
      exact dmStepE_comm env st0.exp p q hnk z
  have hfold_eq : ((parts.flatten).map (fun pr => pr.1)).foldl
      (fun acc p => acc >>= fun s => dmStep env st0.exp s p)
      (.ok st0.dm) =
      (l.map (fun pr => pr.1)).foldl
      (fun acc p => acc >>= fun s => dmStep env st0.exp s p)
      (.ok st0.dm) :=
    List.Perm.foldl_eq' hperm hcomm (Except.ok st0.dm)
  rw [hfold_eq, hf1] at hf2
  have hdm : st1.dm = st2.dm := Except.ok.inj hf2
  exact ⟨congrArg DMState.distances hdm, congrArg DMState.matchings hdm⟩


theorem pureEnv_sample : PureEnv sampleEnv := by
  intro f hf
  simp only [registered_approval_distances, registered_ordinal_distances,
    sampleEnv, constEnv, List.map_append, List.map_cons, List.map_nil,
    List.mem_append, List.mem_cons, List.not_mem_nil, or_false] at hf
  rcases hf with ((h | h) | (h | h | h | h | h | h | h | h | h | h | h |
    h | h | h)) <;> subst h <;> exact fun e1 e2 inn => ⟨rfl, rfl⟩

/-- **C6 witness**: a concrete two-pair list run single-worker, against a
two-worker partition processed in the opposite order, yields the same
distances matrix (with different recorded times). -/
theorem single_multi_equivalence_witness :
    (resultOr (run_single_process sampleEnv [((0, 1), 5), ((2, 3), 7)] false
        (initState ordExp)) (initState ordExp)).distances =
    (resultOr (run_multiple_workers sampleEnv [[((2, 3), 1)], [((0, 1), 2)]]
        (initState ordExp)) (initState ordExp)).distances :=
  (single_multi_equivalence sampleEnv pureEnv_sample
    [((0, 1), 5), ((2, 3), 7)] [[((2, 3), 1)], [((0, 1), 2)]] false
    (initState ordExp)
    (resultOr (run_single_process sampleEnv [((0, 1), 5), ((2, 3), 7)] false
      (initState ordExp)) (initState ordExp))
    (resultOr (run_multiple_workers sampleEnv [[((2, 3), 1)], [((0, 1), 2)]]
      (initState ordExp)) (initState ordExp))
    (by simp [sameKey]) (by decide) rfl rfl).1

end MapelDist
